import Mathlib

/-!
Verification of the encrypted local credential store of the ssh-manager
repository.

The development shallow-embeds two modules:

- the crypto utility module (the envelope codec `encryptData` and `decryptData`,
  the attempt tracker `trackPasswordAttempt`, and `validatePasswordStrength`);
- the secure-storage module (`secureStorage.getItem` and `secureStorage.setItem`,
  `performKeyRotation`, `setMasterPasswordSecure`, `verifyMasterPassword`,
  `clearMasterPassword`, `deriveKeyFromPassword`).

The browser runtime primitives the source composes (WebCrypto AES-256-GCM and
PBKDF2, SHA-256 digests, TextEncoder and TextDecoder, btoa and atob, JSON
serialization of application values, and the DOM-based input sanitizer) are not
part of the repository; they enter the embedding as a `Runtime` parameter whose
fields carry exactly the contracts the platform guarantees (authenticated
decryption inverts encryption under the same key and IV, atob inverts btoa on
byte-valued strings, decoding inverts text encoding, JSON.parse inverts
JSON.stringify). The `toyRuntime` instance at the end of the definitions shows
these contracts are satisfiable and makes every theorem evaluable on concrete
inputs.

JavaScript `Uint8Array` contents are bytes, modelled as `Fin 256`. Timestamps
are milliseconds since the epoch, modelled as `Int` so that window arithmetic
in the lockout tracker matches JavaScript integer arithmetic. `localStorage`
and `sessionStorage` are association lists from string keys to stored values;
a value stored by the module is either a raw string, the JSON text of an
encryption envelope, or the JSON text of a metadata record, and the latter two
are modelled by the parsed object itself since JSON.parse inverts
JSON.stringify on them.
-/

/-! ## Bytes and binary strings -/

/-- One byte of a `Uint8Array`. -/
abbrev Byte : Type := Fin 256

/-- Contents of an `ArrayBuffer` or `Uint8Array`. -/
abbrev Bytes : Type := List Byte

/-- Helper for `arrayBufferToBase64`: the loop building a binary string with
`String.fromCharCode(bytes[i])` for each byte. -/
def binaryStringOfBytes (bs : Bytes) : String :=
  String.mk (bs.map (fun b => Char.ofNat b.val))

/-- Helper for `base64ToArrayBuffer`: the loop storing
`binaryString.charCodeAt(i)` into a `Uint8Array`, which truncates the code
unit modulo 256. -/
def bytesOfBinaryString (s : String) : Bytes :=
  s.data.map (fun c => (⟨c.toNat % 256, by omega⟩ : Byte))

/-! ## Stored object shapes -/

/-- The `EncryptedData` envelope produced by `encryptData`: base64 ciphertext,
IV, salt and tag, plus a format version and a creation timestamp. -/
structure EncryptedData where
  encrypted : String
  iv : String
  salt : String
  tag : String
  version : String
  timestamp : Int
deriving DecidableEq, Repr

/-- The per-key metadata object written next to each stored record, and also
the shape of the global `secure_storage_config` bookkeeping entry. The source
uses duck-typed JSON objects; fields absent from a given object are `none`. -/
structure StorageCfg where
  key : String
  encrypted : Bool
  version : Option String := none
  encryptionVersion : Option String := none
  lastKeyRotation : Option Int := none
  keyRotationRequired : Option Bool := none
deriving DecidableEq, Repr

/-- A string held in `localStorage`. The module writes either a raw string, the
JSON text of an `EncryptedData` envelope, or the JSON text of a metadata
object; the latter two are modelled by the parsed object, which is faithful
because JSON.parse inverts JSON.stringify on these record shapes. -/
inductive SVal where
  | raw (s : String)
  | env (e : EncryptedData)
  | cfg (c : StorageCfg)
deriving DecidableEq, Repr

/-- Reading a stored string as an envelope: `JSON.parse` followed by use of the
`salt`, `iv`, `encrypted` and `tag` fields. A stored value that is not an
envelope makes that access chain throw, which the embedding reports as
`none`. -/
def svalAsEnv : SVal → Option EncryptedData
  | .env e => some e
  | _ => none

/-- Reading a stored string as a metadata object with `JSON.parse`. -/
def svalAsCfg : SVal → Option StorageCfg
  | .cfg c => some c
  | _ => none

/-- The second argument `encryptData` and `decryptData` accept: a pre-derived
CryptoKey or a password string. -/
inductive KeyMaterial (K : Type) where
  | key (k : K)
  | password (p : String)

/-! ## Runtime primitives -/

/-- Platform primitives consumed by the source, with the contracts the platform
guarantees. `Key` is the abstract CryptoKey handle type and `Val` the type of
JSON-representable application values. -/
structure Runtime where
  Key : Type
  Val : Type
  /-- JSON.stringify on application values. -/
  stringify : Val → String
  /-- JSON.parse on application values. -/
  parse : String → Option Val
  /-- PBKDF2 key derivation: password, salt, iteration count (hash fixed to
  SHA-256 by both call sites). -/
  pbkdf2 : String → Bytes → Nat → Key
  /-- AES-256-GCM encryption; the result is ciphertext followed by the 16-byte
  authentication tag, as WebCrypto returns it. -/
  aesGcmEncrypt : Key → Bytes → Bytes → Bytes
  /-- AES-256-GCM decryption of ciphertext-plus-tag; fails when the tag does
  not verify. -/
  aesGcmDecrypt : Key → Bytes → Bytes → Option Bytes
  /-- TextEncoder.encode. -/
  textEncode : String → Bytes
  /-- TextDecoder.decode. -/
  textDecode : Bytes → String
  /-- Base64 encoding of a byte-valued string. -/
  btoa : String → String
  /-- Base64 decoding; fails on strings that are not valid base64. -/
  atob : String → Option String
  /-- SHA-256 digest. -/
  sha256 : Bytes → Bytes
  /-- The DOM-based `sanitizeInput` HTML escaping from the security utility
  module. -/
  sanitize : String → String
  /-- JSON text of an envelope object, used where a stored envelope string is
  returned verbatim. -/
  envText : EncryptedData → String
  /-- JSON text of a metadata object, used where a stored metadata string is
  returned verbatim. -/
  cfgText : StorageCfg → String
  /-- Platform contract: JSON.parse inverts JSON.stringify. -/
  parse_stringify : ∀ v, parse (stringify v) = some v
  /-- Platform contract: decoding inverts encoding. -/
  text_roundtrip : ∀ s, textDecode (textEncode s) = s
  /-- Platform contract: atob inverts btoa on byte-valued strings. -/
  atob_btoa : ∀ s, (∀ c ∈ s.data, c.toNat < 256) → atob (btoa s) = some s
  /-- Platform contract: authenticated decryption inverts encryption under the
  same key and IV. -/
  gcm_roundtrip : ∀ k iv pt, aesGcmDecrypt k iv (aesGcmEncrypt k iv pt) = some pt

/-- The string a stored value denotes, as `localStorage.getItem` returns it. -/
def svalToString (R : Runtime) : SVal → String
  | .raw s => s
  | .env e => R.envText e
  | .cfg c => R.cfgText c

/-! ## Envelope codec (crypto utility module) -/

/-- Converts ArrayBuffer to Base64 string: builds the binary string byte by
byte and applies btoa. -/
def arrayBufferToBase64 (R : Runtime) (bs : Bytes) : String :=
  R.btoa (binaryStringOfBytes bs)

/-- Converts Base64 string to ArrayBuffer: atob followed by per-character
charCodeAt writes into a Uint8Array. atob throws on invalid base64, which the
embedding reports as `none`. -/
def base64ToArrayBuffer (R : Runtime) (s : String) : Option Bytes :=
  (R.atob s).map bytesOfBinaryString

/-- PBKDF2 derivation used by the envelope codec (`deriveKey` in the crypto
module): `CRYPTO_CONFIG.iterations = 100000`, SHA-256, AES-256 output. -/
def deriveKey (R : Runtime) (password : String) (salt : Bytes) : R.Key :=
  R.pbkdf2 password salt 100000

/-- Encrypts data with AES-256-GCM (`encryptData`). The source draws a fresh
random salt and IV from `crypto.getRandomValues` and reads `Date.now()`; the
embedding receives them as the `salt`, `iv` and `now` arguments. String
passwords go through PBKDF2 with the fresh salt; a CryptoKey is used directly.
The WebCrypto output is split into ciphertext and a trailing 16-byte tag. -/
def encryptData (R : Runtime) (salt iv : Bytes) (now : Int) (data : R.Val)
    (key : KeyMaterial R.Key) : EncryptedData :=
  let cryptoKey : R.Key :=
    match key with
    | .password p => deriveKey R p salt
    | .key k => k
  let jsonData := R.stringify data
  let dataBuffer := R.textEncode jsonData
  let encryptedBytes := R.aesGcmEncrypt cryptoKey iv dataBuffer
  let ciphertext := encryptedBytes.take (encryptedBytes.length - 16)
  let tag := encryptedBytes.drop (encryptedBytes.length - 16)
  { encrypted := arrayBufferToBase64 R ciphertext
    iv := arrayBufferToBase64 R iv
    salt := arrayBufferToBase64 R salt
    tag := arrayBufferToBase64 R tag
    version := "1.1.0"
    timestamp := now }

/-- Decrypts an envelope (`decryptData`). A string password is run through
PBKDF2 with the salt carried by the envelope itself; ciphertext and tag are
recombined before authenticated decryption. Any failure (invalid base64, tag
verification, JSON.parse of the recovered text) surfaces as `none`, modelling
the generic thrown error. -/
def decryptData (R : Runtime) (encryptedData : EncryptedData)
    (key : KeyMaterial R.Key) : Option R.Val := do
  let salt ← base64ToArrayBuffer R encryptedData.salt
  let iv ← base64ToArrayBuffer R encryptedData.iv
  let ciphertext ← base64ToArrayBuffer R encryptedData.encrypted
  let tag ← base64ToArrayBuffer R encryptedData.tag
  let cryptoKey : R.Key :=
    match key with
    | .password p => deriveKey R p salt
    | .key k => k
  let combinedData := ciphertext ++ tag
  let decryptedBuffer ← R.aesGcmDecrypt cryptoKey iv combinedData
  let decryptedText := R.textDecode decryptedBuffer
  R.parse decryptedText

/-! ## Round-trip groundwork -/

theorem toNat_ofNat_of_lt {n : Nat} (h : n < 256) : (Char.ofNat n).toNat = n := by
  have hv : n.isValidChar := Or.inl (by omega)
  unfold Char.ofNat
  rw [dif_pos hv]
  rfl

theorem bytesOfBinaryString_binaryStringOfBytes (bs : Bytes) :
    bytesOfBinaryString (binaryStringOfBytes bs) = bs := by
  unfold bytesOfBinaryString binaryStringOfBytes
  induction bs with
  | nil => rfl
  | cons b t ih =>
    simp only [List.map_cons] at *
    rw [ih]
    congr 1
    apply Fin.ext
    simp [toNat_ofNat_of_lt b.isLt, Nat.mod_eq_of_lt b.isLt]

theorem binaryStringOfBytes_valid (bs : Bytes) :
    ∀ c ∈ (binaryStringOfBytes bs).data, c.toNat < 256 := by
  intro c hc
  unfold binaryStringOfBytes at hc
  rw [show (String.mk (bs.map (fun b => Char.ofNat b.val))).data
        = bs.map (fun b => Char.ofNat b.val) from rfl] at hc
  obtain ⟨b, _, rfl⟩ := List.mem_map.mp hc
  rw [toNat_ofNat_of_lt b.isLt]
  exact b.isLt

theorem base64_roundtrip (R : Runtime) (bs : Bytes) :
    base64ToArrayBuffer R (arrayBufferToBase64 R bs) = some bs := by
  unfold base64ToArrayBuffer arrayBufferToBase64
  rw [R.atob_btoa _ (binaryStringOfBytes_valid bs)]
  simp [bytesOfBinaryString_binaryStringOfBytes]

/-- Round trip of the envelope codec for either form of key material. -/
theorem decryptData_encryptData (R : Runtime) (salt iv : Bytes) (now : Int)
    (v : R.Val) (km : KeyMaterial R.Key) :
    decryptData R (encryptData R salt iv now v km) km = some v := by
  cases km with
  | password p =>
    simp only [decryptData, encryptData, base64_roundtrip, Option.bind_some, bind,
      Option.bind_eq_bind]
    simp [base64_roundtrip, List.take_append_drop, R.gcm_roundtrip, R.text_roundtrip,
      R.parse_stringify]
  | key k =>
    simp only [decryptData, encryptData, base64_roundtrip, Option.bind_some, bind,
      Option.bind_eq_bind]
    simp [base64_roundtrip, List.take_append_drop, R.gcm_roundtrip, R.text_roundtrip,
      R.parse_stringify]

/-- Claim C1: for every JSON-serializable structured value `v` and every
password `p`, decrypting the envelope produced by encrypting `v` under the key
derived from `p` (with `decryptData` re-deriving the key from the salt the
envelope itself carries) returns `v`. -/
theorem c1_encrypt_decrypt_roundtrip (R : Runtime) (salt iv : Bytes) (now : Int)
    (p : String) (v : R.Val) :
    decryptData R (encryptData R salt iv now v (.password p)) (.password p) = some v :=
  decryptData_encryptData R salt iv now v (.password p)

/-! ## A concrete runtime instance

Used to evaluate every theorem on concrete inputs. The text codec writes each
character as three base-256 digits of its code point; the cipher appends a
16-byte key-dependent tag and refuses data whose tag does not match, so
decryption under a wrong key fails just as GCM tag verification does. -/

/-- Three-byte big-endian encoding of one character code point. -/
def charToBytes (c : Char) : Bytes :=
  [⟨c.toNat / 65536 % 256, by omega⟩, ⟨c.toNat / 256 % 256, by omega⟩,
   ⟨c.toNat % 256, by omega⟩]

/-- Inverse of `charToBytes`, consuming three bytes per character. -/
def bytesToChars : Bytes → List Char
  | b0 :: b1 :: b2 :: rest =>
      Char.ofNat (b0.val * 65536 + b1.val * 256 + b2.val) :: bytesToChars rest
  | _ => []

theorem char_toNat_lt (c : Char) : c.toNat < 1114112 := by
  rcases c.valid with h | ⟨_, h2⟩
  · exact Nat.lt_trans h (by norm_num)
  · exact h2

theorem bytesToChars_charToBytes (l : List Char) :
    bytesToChars ((l.map charToBytes).flatten) = l := by
  induction l with
  | nil => rfl
  | cons c t ih =>
    simp only [List.map_cons, List.flatten_cons, charToBytes]
    show bytesToChars (_ :: _ :: _ :: _) = _
    rw [bytesToChars]
    have hc := char_toNat_lt c
    have harith : c.toNat / 65536 % 256 * 65536 + c.toNat / 256 % 256 * 256
        + c.toNat % 256 = c.toNat := by omega
    simp [harith, Char.ofNat_toNat, ih]

/-- Toy GCM: ciphertext is the plaintext, the tag is sixteen copies of the key
byte; decryption checks the tag and fails on mismatch. -/
def toyEncrypt (k : Byte) (_iv pt : Bytes) : Bytes :=
  pt ++ List.replicate 16 k

/-- Toy GCM decryption: accepts only data carrying the tag of `k`. -/
def toyDecrypt (k : Byte) (_iv ct : Bytes) : Option Bytes :=
  if ct.drop (ct.length - 16) = List.replicate 16 k ∧ 16 ≤ ct.length then
    some (ct.take (ct.length - 16))
  else none

theorem toyDecrypt_toyEncrypt (k : Byte) (iv pt : Bytes) :
    toyDecrypt k iv (toyEncrypt k iv pt) = some pt := by
  unfold toyDecrypt toyEncrypt
  have hlen : (pt ++ List.replicate 16 k).length = pt.length + 16 := by simp
  rw [if_pos]
  · congr 1
    rw [hlen]
    simp [List.take_left']
  · constructor
    · rw [hlen]
      simp [List.drop_left']
    · omega

/-- The concrete runtime: `Val` is `String` with the identity JSON codec,
`Key` is one byte, PBKDF2 hashes the password by summing code points, SHA-256
and the sanitizer are the identity. -/
def toyRuntime : Runtime where
  Key := Byte
  Val := String
  stringify := id
  parse := some
  pbkdf2 := fun p _ _ => ⟨(p.data.map Char.toNat).sum % 256, by omega⟩
  aesGcmEncrypt := toyEncrypt
  aesGcmDecrypt := toyDecrypt
  textEncode := fun s => (s.data.map charToBytes).flatten
  textDecode := fun bs => String.mk (bytesToChars bs)
  btoa := id
  atob := some
  sha256 := id
  sanitize := id
  envText := fun _ => ""
  cfgText := fun _ => ""
  parse_stringify := fun _ => rfl
  text_roundtrip := fun s => by
    cases s with
    | mk l => simp [bytesToChars_charToBytes]
  atob_btoa := fun _ _ => rfl
  gcm_roundtrip := toyDecrypt_toyEncrypt

/-! ## Password attempt tracking (crypto utility module) -/

/-- One entry of the in-memory attempt log. -/
structure AttemptRec where
  timestamp : Int
  success : Bool
deriving DecidableEq, Repr

/-- The result `trackPasswordAttempt` returns. -/
structure AttemptStatus where
  allowed : Bool
  remainingAttempts : Nat
  lockoutTime : Option Int := none
deriving DecidableEq, Repr

/-- Math.ceil of an exact millisecond difference divided by 60000
(`Math.ceil((lockoutEnd - now) / 1000 / 60)`). -/
def ceilMinutes (d : Int) : Int :=
  if 0 ≤ d then (d + 59999) / 60000 else d / 60000

/-- The failed attempts inside the trailing 15-minute window, as the tracker
counts them. -/
def failedCountInWindow (attempts : List AttemptRec) (now : Int) : Nat :=
  ((attempts.filter (fun a => decide (now - 15 * 60 * 1000 < a.timestamp))).filter
    (fun a => !a.success)).length

/-- Tracks and limits password attempts (`trackPasswordAttempt`): prunes the
log to the window, counts failed attempts, appends the new attempt, and locks
out once five failures are in the window, reporting minutes until the oldest
failed attempt leaves the window. The mutated module-level log is returned
alongside the status. -/
def trackPasswordAttempt (attempts : List AttemptRec) (now : Int)
    (success : Bool) : List AttemptRec × AttemptStatus :=
  let timeWindow := now - 15 * 60 * 1000
  let kept := attempts.filter (fun a => decide (timeWindow < a.timestamp))
  let failedAttempts := (kept.filter (fun a => !a.success)).length
  let newAttempts := kept ++ [⟨now, success⟩]
  if 5 ≤ failedAttempts then
    match newAttempts.find? (fun a => !a.success) with
    | some firstFailed =>
        let lockoutEnd := firstFailed.timestamp + 15 * 60 * 1000
        (newAttempts, ⟨false, 0, some (ceilMinutes (lockoutEnd - now))⟩)
    | none => (newAttempts, ⟨false, 0, none⟩)
  else
    (newAttempts, ⟨true, 5 - failedAttempts, none⟩)

/-! ## Password strength validation (crypto utility module) -/

/-- The special characters accepted by the strength check; the braces are
written by code point. -/
def specialChars : List Char :=
  ['!', '@', '#', '$', '%', '^', '&', '*', '(', ')', '_', '+', '-', '=',
   '[', ']', Char.ofNat 123, Char.ofNat 125, '|', ';', ':', ',', '.', '<', '>', '?']

/-- The result of `validatePasswordStrength`. -/
structure PasswordValidation where
  isValid : Bool
  score : Nat
  requirements : List String
deriving DecidableEq, Repr

/-- Validates password strength (`validatePasswordStrength`): length at least
12, the four character classes, and a distinct-character ratio of at least
seven tenths. The source compares `uniqueChars >= password.length * 0.7` in
binary floating point; the rational comparison used here agrees with it except
when seven tenths of the length is attained exactly and the float product
rounds upward, a borderline no theorem below depends on. -/
def validatePasswordStrength (password : String) : PasswordValidation :=
  let r1 := password.length ≥ 12
  let r2 := password.data.any (fun c => 'A' ≤ c && c ≤ 'Z')
  let r3 := password.data.any (fun c => 'a' ≤ c && c ≤ 'z')
  let r4 := password.data.any (fun c => '0' ≤ c && c ≤ '9')
  let r5 := password.data.any (fun c => specialChars.contains c)
  let uniqueChars := password.data.eraseDups.length
  let r6 := uniqueChars * 10 ≥ password.length * 7
  let score := (if r1 then 2 else 0) + (if r2 then 1 else 0) + (if r3 then 1 else 0)
    + (if r4 then 1 else 0) + (if r5 then 1 else 0) + (if r6 then 1 else 0)
  let requirements :=
    (if r1 then [] else ["At least 12 characters"])
    ++ (if r2 then [] else ["Uppercase letters"])
    ++ (if r3 then [] else ["Lowercase letters"])
    ++ (if r4 then [] else ["Numbers"])
    ++ (if r5 then [] else ["Special characters"])
    ++ (if r6 then [] else ["High character diversity"])
  ⟨score ≥ 6, score, requirements⟩

/-! ## Hex digests -/

/-- One byte as two lowercase hex digits
(`b.toString(16).padStart(2, zero)`). -/
def byteToHex (b : Byte) : String :=
  let s := (Nat.toDigits 16 b.val).asString
  if s.length = 1 then "0" ++ s else s

/-- The SHA-256 hex digest of a string as both password functions compute it:
encode, digest, then per-byte lowercase hex join. -/
def sha256Hex (R : Runtime) (s : String) : String :=
  String.join ((R.sha256 (R.textEncode s)).map byteToHex)

/-! ## String predicates used by the rotation key filter -/

/-- Bool-valued substring occurrence on character lists. -/
def listContains (l sub : List Char) : Bool :=
  l.tails.any (fun t => sub.isPrefixOf t)

/-- The `String.includes` check of JavaScript. -/
def strContains (s sub : String) : Bool :=
  listContains s.data sub.data

/-- The `String.startsWith` check of JavaScript. -/
def strStartsWith (s pre : String) : Bool :=
  pre.data.isPrefixOf s.data

/-! ## Association-list stores -/

/-- Lookup in a web storage area. -/
def alGet {α : Type} (m : List (String × α)) (k : String) : Option α :=
  (m.find? (fun p => p.1 == k)).map (fun p => p.2)

/-- Point update of a web storage area; the updated key moves to the end,
which matters to nothing here since `Object.keys` order is only ever consumed
for a snapshot taken before any update. -/
def alSet {α : Type} (m : List (String × α)) (k : String) (v : α) :
    List (String × α) :=
  m.filter (fun p => p.1 != k) ++ [(k, v)]

/-- Key removal from a web storage area. -/
def alRemove {α : Type} (m : List (String × α)) (k : String) :
    List (String × α) :=
  m.filter (fun p => p.1 != k)

/-- The `Object.keys` enumeration of a storage area. -/
def alKeys {α : Type} (m : List (String × α)) : List String :=
  m.map (fun p => p.1)

/-! ## Module state -/

/-- The mutable state the secure-storage module closes over: `localStorage`,
`sessionStorage`, the module-level `globalCryptoKey` and
`globalEncryptionEnabled`, the module-level attempt log, the current
`Date.now()` reading, and the stream of fresh `crypto.getRandomValues` draws
(`rng n` is the n-th fresh salt and IV pair, `rngIdx` the next index). -/
structure St (R : Runtime) where
  localStore : List (String × SVal)
  sessionStore : List (String × String)
  activeKey : Option R.Key
  encryptionEnabled : Bool
  attempts : List AttemptRec
  now : Int
  rng : Nat → Bytes × Bytes
  rngIdx : Nat

/-! ## Secure storage operations -/

/-- The outcome `secureStorage.getItem` delivers: the returned string (or
null) and the message of the error logged by the catch handler, if any. -/
structure GetOutcome where
  value : Option String
  loggedError : Option String
deriving DecidableEq, Repr

/-- Placeholder for the runtime-defined message of a JSON.parse SyntaxError. -/
def jsonParseErrorMsg : String := "Unexpected token in JSON"

/-- The body of `secureStorage.getItem` before its catch handler: absent key
gives null; absent metadata returns the stored string unchanged (legacy);
unencrypted metadata returns the stored string; encrypted metadata requires
the active key, parses the envelope, decrypts, and returns the JSON text of
the decrypted value. Errors carry the thrown message. -/
def getItemE (R : Runtime) (st : St R) (key : String) :
    Except String (Option String) :=
  match alGet st.localStore key with
  | none => .ok none
  | some stored =>
    match alGet st.localStore (key ++ "_config") with
    | none => .ok (some (svalToString R stored))
    | some config =>
      match svalAsCfg config with
      | none => .error jsonParseErrorMsg
      | some configObj =>
        if !configObj.encrypted then .ok (some (svalToString R stored))
        else
          match st.activeKey with
          | none => .error "Encryption key required"
          | some k =>
            match svalAsEnv stored with
            | none => .error jsonParseErrorMsg
            | some encryptedData =>
              match decryptData R encryptedData (.key k) with
              | none => .error "Decryption failed - please verify your credentials"
              | some decryptedData => .ok (some (R.stringify decryptedData))

/-- The full `secureStorage.getItem`: the catch handler logs the error and
returns null, so no exception reaches the caller. -/
def getItem (R : Runtime) (st : St R) (key : String) : GetOutcome :=
  match getItemE R st key with
  | .ok v => ⟨v, none⟩
  | .error e => ⟨none, some e⟩

/-- The `secureStorage.setItem` operation. With an active key the value string
is JSON-parsed, encrypted under the key with a fresh salt and IV, and stored
with encrypted metadata; without one the raw string is stored with
unencrypted metadata. A JSON.parse failure is caught and rethrown as the
generic storage error, modelled as `none`, and nothing is written. -/
def setItem (R : Runtime) (st : St R) (key value : String) : Option (St R) :=
  match st.activeKey with
  | some k =>
    match R.parse value with
    | none => none
    | some data =>
      let si := st.rng st.rngIdx
      let encryptedData := encryptData R si.1 si.2 st.now data (.key k)
      some { st with
        localStore :=
          alSet (alSet st.localStore key (.env encryptedData)) (key ++ "_config")
            (.cfg { key := key, encrypted := true, version := some "1.1.0" })
        encryptionEnabled := true
        rngIdx := st.rngIdx + 1 }
  | none =>
      some { st with
        localStore :=
          alSet (alSet st.localStore key (.raw value)) (key ++ "_config")
            (.cfg { key := key, encrypted := false, version := some "1.1.0" })
        encryptionEnabled := false }

/-! ## Key derivation and rotation -/

/-- The fixed per-installation PBKDF2 salt of `KEY_DERIVATION_PARAMS`. -/
def keyDerivationSalt (R : Runtime) : Bytes :=
  R.textEncode "quantum-ssh-manager-salt-2025"

/-- Derives the module CryptoKey from a password (`deriveKeyFromPassword`):
PBKDF2 over the fixed salt with 100000 iterations and SHA-256. -/
def deriveKeyFromPassword (R : Runtime) (password : String) : R.Key :=
  R.pbkdf2 password (keyDerivationSalt R) 100000

/-- One iteration of the re-encryption loop of `performKeyRotation`: keys
containing "config" are skipped; the entry is read, JSON-parsed as an
envelope, decrypted with the old key and overwritten with an envelope under
the new key; any per-entry failure is logged and the entry left unchanged. -/
def rotateOne (R : Runtime) (oldKey newKey : R.Key) (st : St R)
    (key : String) : St R :=
  if strContains key "config" then st
  else
    match alGet st.localStore key with
    | none => st
    | some stored =>
      match svalAsEnv stored with
      | none => st
      | some parsedData =>
        match decryptData R parsedData (.key oldKey) with
        | none => st
        | some decryptedData =>
          let si := st.rng st.rngIdx
          let reEncryptedData :=
            encryptData R si.1 si.2 st.now decryptedData (.key newKey)
          { st with
            localStore := alSet st.localStore key (.env reEncryptedData)
            rngIdx := st.rngIdx + 1 }

/-- The bookkeeping step at the end of `performKeyRotation`:
`getStorageConfig` reads and parses `secure_storage_config` (returning null on
failure, in which case nothing is written), then `lastKeyRotation` is set to
now and `keyRotationRequired` cleared. -/
def rotationBookkeeping (R : Runtime) (st : St R) : St R :=
  match alGet st.localStore "secure_storage_config" with
  | none => st
  | some sv =>
    match svalAsCfg sv with
    | none => st
    | some storageConfig =>
      { st with
        localStore := alSet st.localStore "secure_storage_config"
          (.cfg { storageConfig with
            lastKeyRotation := some st.now
            keyRotationRequired := some false }) }

/-- The `performKeyRotation` operation: requires an active key (else the outer
catch returns false), derives the new key from the password with the fixed
salt, re-encrypts every entry whose key starts with "secure_" via `rotateOne`
over a key snapshot, updates the bookkeeping entry, and installs the new key.
The boolean is the returned success flag. -/
def performKeyRotation (R : Runtime) (st : St R) (newPassword : String) :
    St R × Bool :=
  match st.activeKey with
  | none => (st, false)
  | some oldKey =>
    let newKey := deriveKeyFromPassword R newPassword
    let keys := alKeys st.localStore
    let encryptedKeys := keys.filter (fun k => strStartsWith k "secure_")
    let st1 := encryptedKeys.foldl (rotateOne R oldKey newKey) st
    let st2 := rotationBookkeeping R st1
    ({ st2 with activeKey := some newKey }, true)

/-! ## Master password manager -/

/-- The `setMasterPasswordSecure` operation: sanitize, validate strength
(throwing on weakness, modelled as `none`), store the SHA-256 hex verifier in
session storage, install the derived CryptoKey as the active key, and stamp
`lastKeyRotation` in the storage config (creating it if absent with the
default object). The react-local state and toast are omitted. No migration of
existing plaintext records is performed. -/
def setMasterPasswordSecure (R : Runtime) (st : St R) (password : String) :
    Option (St R) :=
  let sanitizedPassword := R.sanitize password
  let validation := validatePasswordStrength sanitizedPassword
  if !validation.isValid then none
  else
    let hashHex := sha256Hex R sanitizedPassword
    let st1 := { st with
      sessionStore := alSet st.sessionStore "master_password_hash" hashHex }
    let st2 := { st1 with
      activeKey := some (deriveKeyFromPassword R sanitizedPassword)
      encryptionEnabled := true }
    let config :=
      ((alGet st2.localStore "secure_storage_config").bind svalAsCfg).getD
        { key := "secure_storage", encrypted := true,
          encryptionVersion := some "1.1.0" }
    some { st2 with
      localStore := alSet st2.localStore "secure_storage_config"
        (.cfg { config with lastKeyRotation := some st2.now }) }

/-- The `verifyMasterPassword` operation: sanitize, then call the attempt
tracker with `success = false` before the hash comparison ("tentatively track
as failed until verified" in the source); on lockout return false, otherwise
compare the SHA-256 hex of the candidate with the session verifier. The
tracked outcome is never corrected afterwards. -/
def verifyMasterPassword (R : Runtime) (st : St R) (password : String) :
    St R × Bool :=
  let sanitizedPassword := R.sanitize password
  let tracked := trackPasswordAttempt st.attempts st.now false
  let st1 := { st with attempts := tracked.1 }
  if !tracked.2.allowed then (st1, false)
  else
    let hashHex := sha256Hex R sanitizedPassword
    let isVerified :=
      match alGet st1.sessionStore "master_password_hash" with
      | some storedHash => hashHex == storedHash
      | none => false
    (st1, isVerified)

/-- The `clearMasterPassword` operation: drop the session verifier and clear
the active key via `setEncryptionKey(null)`. -/
def clearMasterPassword (R : Runtime) (st : St R) : St R :=
  { st with
    sessionStore := alRemove st.sessionStore "master_password_hash"
    activeKey := none
    encryptionEnabled := false }

/-! ## Store lemmas -/

theorem find?_append_of_none {α : Type} {p : α → Bool} {l1 l2 : List α}
    (h : l1.find? p = none) : (l1 ++ l2).find? p = l2.find? p := by
  rw [List.find?_append, h, Option.none_or]

theorem find?_filter_of_imp {α : Type} (p q : α → Bool) (l : List α)
    (h : ∀ x, p x = true → q x = true) :
    (l.filter q).find? p = l.find? p := by
  induction l with
  | nil => rfl
  | cons a t ih =>
    by_cases hq : q a = true
    · rw [List.filter_cons_of_pos hq]
      by_cases hp : p a = true
      · rw [List.find?_cons_of_pos _ hp, List.find?_cons_of_pos _ hp]
      · rw [List.find?_cons_of_neg _ (by simpa using hp),
          List.find?_cons_of_neg _ (by simpa using hp), ih]
    · have hp : ¬ p a = true := fun hpa => hq (h a hpa)
      rw [List.filter_cons_of_neg (by simpa using hq),
        List.find?_cons_of_neg _ (by simpa using hp), ih]

theorem alGet_alSet_self {α : Type} (m : List (String × α)) (k : String) (v : α) :
    alGet (alSet m k v) k = some v := by
  unfold alGet alSet
  have hnone : (m.filter (fun p => p.1 != k)).find? (fun p => p.1 == k) = none := by
    rw [List.find?_eq_none]
    intro p hp
    have := (List.mem_filter.mp hp).2
    simpa using this
  rw [find?_append_of_none hnone]
  simp [List.find?]

theorem alGet_alSet_ne {α : Type} (m : List (String × α)) (k kq : String) (v : α)
    (h : kq ≠ k) : alGet (alSet m k v) kq = alGet m kq := by
  unfold alGet alSet
  rw [List.find?_append]
  have hlast : List.find? (fun p => p.1 == kq) [(k, v)] = none := by
    rw [List.find?_cons_of_neg _ (by simpa using Ne.symm h)]
    rfl
  rw [hlast, Option.or_none]
  rw [find?_filter_of_imp (fun p => p.1 == kq) (fun p => p.1 != k) m
    (fun x hx => by
      have hxk : x.1 = kq := by simpa using hx
      simp [hxk, h])]

theorem alGet_mem_keys {α : Type} {m : List (String × α)} {k : String} {v : α}
    (h : alGet m k = some v) : k ∈ alKeys m := by
  unfold alGet at h
  obtain ⟨p, hfind, _⟩ := Option.map_eq_some'.mp h
  have hp1 : p.1 = k := by simpa using List.find?_some hfind
  have hmem := List.mem_of_find?_eq_some hfind
  unfold alKeys
  exact hp1 ▸ List.mem_map_of_mem (fun p => p.1) hmem

/-! ## String lemmas for the rotation filter -/

theorem listContains_cons {l t : List Char} (c : Char)
    (h : listContains l t = true) : listContains (c :: l) t = true := by
  unfold listContains at *
  rw [List.tails_cons]
  simp only [List.any_cons]
  rw [h]
  simp

theorem listContains_append {l t : List Char} (u : List Char)
    (h : listContains l t = true) : listContains (u ++ l) t = true := by
  induction u with
  | nil => simpa using h
  | cons c u2 ih => simpa using listContains_cons c ih

theorem strContains_append_config (k : String) :
    strContains (k ++ "_config") "config" = true := by
  unfold strContains
  rw [String.data_append]
  exact listContains_append k.data (by decide)

theorem append_config_ne_self (k : String) : k ++ "_config" ≠ k := by
  intro h
  have hlen := congrArg String.length h
  rw [String.length_append] at hlen
  have : ("_config" : String).length = 7 := by decide
  omega

theorem append_config_inj {k kq : String} (h : k ++ "_config" = kq ++ "_config") :
    k = kq := by
  have hd := congrArg String.data h
  rw [String.data_append, String.data_append] at hd
  have := List.append_cancel_right hd
  cases k; cases kq; simp_all

theorem ne_bookkeeping_of_not_config {k : String}
    (h : strContains k "config" = false) : k ≠ "secure_storage_config" := by
  intro he
  rw [he] at h
  have : strContains "secure_storage_config" "config" = true := by decide
  rw [this] at h
  simp at h

theorem append_config_ne_bookkeeping {k : String} (h : k ≠ "secure_storage") :
    k ++ "_config" ≠ "secure_storage_config" := by
  intro he
  have : k ++ "_config" = "secure_storage" ++ "_config" := he
  exact h (append_config_inj this)

/-! ## Rotation lemmas -/

theorem rotateOne_get_ne (R : Runtime) (ok nk : R.Key) (st : St R)
    (k kq : String) (h : kq ≠ k) :
    alGet (rotateOne R ok nk st k).localStore kq = alGet st.localStore kq := by
  unfold rotateOne
  split
  · rfl
  · split
    · rfl
    · split
      · rfl
      · split
        · rfl
        · exact alGet_alSet_ne _ _ _ _ h

theorem rotateOne_config (R : Runtime) (ok nk : R.Key) (st : St R) (k : String)
    (h : strContains k "config" = true) : rotateOne R ok nk st k = st := by
  unfold rotateOne
  rw [if_pos h]

theorem foldl_rotateOne_frame (R : Runtime) (ok nk : R.Key) (ks : List String)
    (kq : String) :
    ∀ st : St R, (∀ kk ∈ ks, kk ≠ kq ∨ strContains kk "config" = true) →
    alGet ((ks.foldl (rotateOne R ok nk) st)).localStore kq
      = alGet st.localStore kq := by
  induction ks with
  | nil => intro st _; rfl
  | cons h t ih =>
    intro st hall
    rw [List.foldl_cons]
    rcases hall h (by simp) with hne | hcfg
    · rw [ih _ (fun kk hk => hall kk (by simp [hk]))]
      exact rotateOne_get_ne R ok nk st h kq (fun he => hne he.symm)
    · rw [ih _ (fun kk hk => hall kk (by simp [hk])), rotateOne_config R ok nk st h hcfg]

theorem foldl_rotateOne_effect (R : Runtime) (ok nk : R.Key) (ks : List String) :
    ∀ (st : St R) (k : String) (env : EncryptedData) (v : R.Val),
    ks.Nodup → k ∈ ks → strContains k "config" = false →
    alGet st.localStore k = some (.env env) →
    decryptData R env (.key ok) = some v →
    ∃ e2, alGet ((ks.foldl (rotateOne R ok nk) st)).localStore k = some (.env e2) ∧
      decryptData R e2 (.key nk) = some v := by
  induction ks with
  | nil => intro st k env v _ hk; exact absurd hk (List.not_mem_nil k)
  | cons h t ih =>
    intro st k env v hnd hk hcfg hv hd
    have hnotmem : h ∉ t := (List.nodup_cons.mp hnd).1
    have hndt : t.Nodup := (List.nodup_cons.mp hnd).2
    rw [List.foldl_cons]
    rcases List.mem_cons.mp hk with rfl | hkt
    · -- the head is the key in question: this step rewrites it
      have hstep : (rotateOne R ok nk st k).localStore
          = alSet st.localStore k
              (.env (encryptData R (st.rng st.rngIdx).1 (st.rng st.rngIdx).2 st.now v
                (.key nk))) := by
        unfold rotateOne
        rw [if_neg (by simp [hcfg]), hv]
        show (match svalAsEnv (.env env) with
          | none => st
          | some parsedData => _ : St R).localStore = _
        rw [show svalAsEnv (.env env) = some env from rfl]
        simp only [hd]
      refine ⟨encryptData R (st.rng st.rngIdx).1 (st.rng st.rngIdx).2 st.now v (.key nk),
        ?_, decryptData_encryptData R _ _ _ v (.key nk)⟩
      rw [foldl_rotateOne_frame R ok nk t k _
        (fun kk hkk => Or.inl (fun he => hnotmem (he ▸ hkk)))]
      rw [hstep]
      exact alGet_alSet_self _ _ _
    · have hkh : k ≠ h := fun he => hnotmem (he ▸ hkt)
      have hv2 : alGet (rotateOne R ok nk st h).localStore k = some (.env env) := by
        rw [rotateOne_get_ne R ok nk st h k hkh]
        exact hv
      exact ih (rotateOne R ok nk st h) k env v hndt hkt hcfg hv2 hd

theorem alGet_alRemove_self {α : Type} (m : List (String × α)) (k : String) :
    alGet (alRemove m k) k = none := by
  unfold alGet alRemove
  rw [List.find?_eq_none.mpr]
  · rfl
  · intro p hp
    have := (List.mem_filter.mp hp).2
    simpa using this

/-! ## Claim C1 witness -/

/-- Witness for claim C1 at a concrete salt, IV, password and value under the
concrete runtime. -/
theorem c1_roundtrip_witness :
    decryptData toyRuntime
      (encryptData toyRuntime [(1 : Byte)] [(2 : Byte)] 0 "host-record"
        (.password "pw"))
      (.password "pw") = some "host-record" :=
  c1_encrypt_decrypt_roundtrip toyRuntime [(1 : Byte)] [(2 : Byte)] 0 "pw" "host-record"

/-! ## Claim C5: reads of encrypted records after clearMasterPassword -/

/-- Claim C5: `clearMasterPassword` removes the active key and the session
verifier, and in any state without an active key, `getItem` on a record whose
metadata says encrypted fails with the missing-key error (raised internally,
logged, and surfaced to the caller as null per the never-throw contract of the
record store) — and this persists until a key is installed again. -/
theorem c5_missing_key_after_clear :
    (∀ (R : Runtime) (st : St R),
      (clearMasterPassword R st).activeKey = none ∧
      alGet (clearMasterPassword R st).sessionStore "master_password_hash" = none) ∧
    (∀ (R : Runtime) (st : St R) (key : String) (stored cfgSv : SVal)
      (cfg : StorageCfg),
      st.activeKey = none →
      alGet st.localStore key = some stored →
      alGet st.localStore (key ++ "_config") = some cfgSv →
      svalAsCfg cfgSv = some cfg →
      cfg.encrypted = true →
      getItem R st key = ⟨none, some "Encryption key required"⟩) := by
  constructor
  · intro R st
    exact ⟨rfl, alGet_alRemove_self _ _⟩
  · intro R st key stored cfgSv cfg h1 h2 h3 h4 h5
    simp [getItem, getItemE, h1, h2, h3, h4, h5]

/-- Witness for claim C5: a concrete cleared state with one encrypted record;
the read fails with the missing-key error. -/
theorem c5_missing_key_witness :
    getItem toyRuntime
      { localStore :=
          [("hosts", .env ⟨"c", "i", "s", "t", "1.1.0", 0⟩),
           ("hosts_config", .cfg { key := "hosts", encrypted := true })]
        sessionStore := []
        activeKey := none
        encryptionEnabled := false
        attempts := []
        now := 0
        rng := fun _ => ([], [])
        rngIdx := 0 }
      "hosts" = ⟨none, some "Encryption key required"⟩ :=
  c5_missing_key_after_clear.2 toyRuntime _ "hosts"
    (.env ⟨"c", "i", "s", "t", "1.1.0", 0⟩)
    (.cfg { key := "hosts", encrypted := true })
    { key := "hosts", encrypted := true }
    rfl (by decide) (by decide) rfl rfl

/-! ## Claim C6: getItem returns null on decryption failure, never throws -/

/-- Claim C6: for a record whose metadata says encrypted, a decryption failure
of the stored envelope (wrong key, tampering, corrupt data) makes `getItem`
return null with the generic decryption error logged; and every internal error
of the read path is caught and surfaced as null plus a logged message, so no
exception reaches the caller. -/
theorem c6_get_null_on_decrypt_failure :
    (∀ (R : Runtime) (st : St R) (key : String) (stored cfgSv : SVal)
      (cfg : StorageCfg) (k : R.Key) (env : EncryptedData),
      alGet st.localStore key = some stored →
      alGet st.localStore (key ++ "_config") = some cfgSv →
      svalAsCfg cfgSv = some cfg →
      cfg.encrypted = true →
      st.activeKey = some k →
      svalAsEnv stored = some env →
      decryptData R env (.key k) = none →
      getItem R st key =
        ⟨none, some "Decryption failed - please verify your credentials"⟩) ∧
    (∀ (R : Runtime) (st : St R) (key e : String),
      getItemE R st key = .error e → getItem R st key = ⟨none, some e⟩) := by
  constructor
  · intro R st key stored cfgSv cfg k env h1 h2 h3 h4 h5 h6 h7
    simp [getItem, getItemE, h1, h2, h3, h4, h5, h6, h7]
  · intro R st key e h
    simp [getItem, h]

/-- Witness for claim C6: a concrete state whose record is encrypted under the
key of password Pw1 while the active key is the one of password Pw2; the toy
tag check fails as GCM tag verification would, and the read returns null with
the generic error. -/
theorem c6_get_null_witness :
    getItem toyRuntime
      { localStore :=
          [("hosts",
            .env (encryptData toyRuntime [(1 : Byte)] [(2 : Byte)] 0 "vv"
              (.key (deriveKeyFromPassword toyRuntime "Pw1")))),
           ("hosts_config", .cfg { key := "hosts", encrypted := true })]
        sessionStore := []
        activeKey := some (deriveKeyFromPassword toyRuntime "Pw2")
        encryptionEnabled := true
        attempts := []
        now := 0
        rng := fun _ => ([], [])
        rngIdx := 0 }
      "hosts" = ⟨none, some "Decryption failed - please verify your credentials"⟩ :=
  c6_get_null_on_decrypt_failure.1 toyRuntime _ "hosts"
    (.env (encryptData toyRuntime [(1 : Byte)] [(2 : Byte)] 0 "vv"
      (.key (deriveKeyFromPassword toyRuntime "Pw1"))))
    (.cfg { key := "hosts", encrypted := true })
    { key := "hosts", encrypted := true }
    (deriveKeyFromPassword toyRuntime "Pw2")
    (encryptData toyRuntime [(1 : Byte)] [(2 : Byte)] 0 "vv"
      (.key (deriveKeyFromPassword toyRuntime "Pw1")))
    (by decide) (by decide) rfl rfl rfl rfl rfl

/-! ## Claim C9: set encrypts exactly when a key is active at write time -/

/-- Claim C9: for every key and JSON-serializable value, `setItem` writes an
envelope with metadata encrypted true exactly when an active key is present at
the time of the write, and the plaintext string with metadata encrypted false
when none is. -/
theorem c9_set_encrypts_iff_active_key (R : Runtime) (st : St R)
    (key value : String) (v : R.Val) (hparse : R.parse value = some v) :
    ∃ st2, setItem R st key value = some st2 ∧
      ∃ cfg : StorageCfg,
        alGet st2.localStore (key ++ "_config") = some (.cfg cfg) ∧
        cfg.encrypted = st.activeKey.isSome ∧
        (st.activeKey = none → alGet st2.localStore key = some (.raw value)) ∧
        (∀ k, st.activeKey = some k →
          ∃ e, alGet st2.localStore key = some (.env e) ∧
            decryptData R e (.key k) = some v) := by
  have hkeyne : key ≠ key ++ "_config" :=
    fun he => append_config_ne_self key he.symm
  cases hak : st.activeKey with
  | none =>
    simp only [setItem, hak]
    refine ⟨_, rfl, ?_⟩
    refine ⟨{ key := key, encrypted := false, version := some "1.1.0" }, ?_, by simp [hak], ?_, ?_⟩
    · exact alGet_alSet_self _ _ _
    · intro _
      rw [alGet_alSet_ne _ _ _ _ hkeyne]
      exact alGet_alSet_self _ _ _
    · intro k hk
      exact absurd hk (by simp)
  | some k =>
    simp only [setItem, hak, hparse]
    refine ⟨_, rfl, ?_⟩
    refine ⟨{ key := key, encrypted := true, version := some "1.1.0" }, ?_, by simp [hak], ?_, ?_⟩
    · exact alGet_alSet_self _ _ _
    · intro hnone
      exact absurd hnone (by simp)
    · intro k2 hk2
      obtain rfl : k = k2 := by simpa using hk2
      refine ⟨encryptData R (st.rng st.rngIdx).1 (st.rng st.rngIdx).2 st.now v (.key k),
        ?_, decryptData_encryptData R _ _ _ v (.key k)⟩
      rw [alGet_alSet_ne _ _ _ _ hkeyne]
      exact alGet_alSet_self _ _ _

/-- Witness for claim C9: a concrete write with an active key stores an
envelope with encrypted metadata that decrypts back to the value. -/
theorem c9_set_witness :
    ∃ st2, setItem toyRuntime
        { localStore := []
          sessionStore := []
          activeKey := some (deriveKeyFromPassword toyRuntime "Pw1")
          encryptionEnabled := true
          attempts := []
          now := 0
          rng := fun _ => ([(1 : Byte)], [(2 : Byte)])
          rngIdx := 0 }
        "hosts" "vv" = some st2 ∧
      ∃ cfg : StorageCfg,
        alGet st2.localStore ("hosts" ++ "_config") = some (.cfg cfg) ∧
        cfg.encrypted = true ∧
        (∀ k, some (deriveKeyFromPassword toyRuntime "Pw1") = some k →
          ∃ e, alGet st2.localStore "hosts" = some (.env e) ∧
            decryptData toyRuntime e (.key k) = some "vv") := by
  obtain ⟨st2, hset, cfg, hcfg, henc, _, hsome⟩ :=
    c9_set_encrypts_iff_active_key toyRuntime
      { localStore := []
        sessionStore := []
        activeKey := some (deriveKeyFromPassword toyRuntime "Pw1")
        encryptionEnabled := true
        attempts := []
        now := 0
        rng := fun _ => ([(1 : Byte)], [(2 : Byte)])
        rngIdx := 0 }
      "hosts" "vv" "vv" rfl
  exact ⟨st2, hset, cfg, hcfg, henc, hsome⟩

/-! ## Claim C3: lockout after five failed attempts in the window -/

theorem find?_failed_min (l : List AttemptRec)
    (hs : l.Pairwise (fun x y => x.timestamp ≤ y.timestamp))
    (a0 : AttemptRec) (hfind : l.find? (fun a => !a.success) = some a0) :
    ∀ a ∈ l, a.success = false → a0.timestamp ≤ a.timestamp := by
  induction l with
  | nil => simp at hfind
  | cons h t ih =>
    by_cases hh : (!h.success) = true
    · rw [List.find?_cons_of_pos (p := fun a : AttemptRec => !a.success) _ hh] at hfind
      have heq : h = a0 := by simpa using hfind
      subst heq
      intro a ha _
      rcases List.mem_cons.mp ha with rfl | hat
      · exact le_refl _
      · exact (List.pairwise_cons.mp hs).1 a hat
    · rw [List.find?_cons_of_neg (p := fun a : AttemptRec => !a.success) _ hh] at hfind
      intro a ha hfa
      rcases List.mem_cons.mp ha with rfl | hat
      · simp [hfa] at hh
      · exact ih (List.pairwise_cons.mp hs).2 hfind a hat hfa

/-- Evaluation form of the tracker, surfacing the pruned log, the appended
attempt, and the two branches. -/
theorem trackPasswordAttempt_eval (attempts : List AttemptRec) (now : Int)
    (success : Bool) :
    trackPasswordAttempt attempts now success =
      (let kept := attempts.filter (fun a => decide (now - 15 * 60 * 1000 < a.timestamp))
       let newAttempts := kept ++ [⟨now, success⟩]
       if 5 ≤ failedCountInWindow attempts now then
         match newAttempts.find? (fun a => !a.success) with
         | some firstFailed =>
             (newAttempts,
              ⟨false, 0, some (ceilMinutes (firstFailed.timestamp + 15 * 60 * 1000 - now))⟩)
         | none => (newAttempts, ⟨false, 0, none⟩)
       else (newAttempts, ⟨true, 5 - failedCountInWindow attempts now, none⟩)) := rfl

/-- Claim C3: in a chronologically ordered attempt log holding five failed
attempts inside the trailing 15-minute window, the next tracker call rejects
with allowed false and reports the remaining lockout minutes computed from the
oldest failed attempt in the window; and once every failed attempt is older
than the window, a call is allowed again. -/
theorem c3_lockout_after_five_failures :
    (∀ (attempts : List AttemptRec) (now : Int) (success : Bool),
      attempts.Pairwise (fun x y => x.timestamp ≤ y.timestamp) →
      5 ≤ failedCountInWindow attempts now →
      (trackPasswordAttempt attempts now success).2.allowed = false ∧
      ∃ a0 : AttemptRec, a0.success = false ∧ a0 ∈ attempts ∧
        now - 15 * 60 * 1000 < a0.timestamp ∧
        (∀ a ∈ attempts, a.success = false → now - 15 * 60 * 1000 < a.timestamp →
          a0.timestamp ≤ a.timestamp) ∧
        (trackPasswordAttempt attempts now success).2.lockoutTime
          = some (ceilMinutes (a0.timestamp + 15 * 60 * 1000 - now))) ∧
    (∀ (attempts : List AttemptRec) (now : Int) (success : Bool),
      (∀ a ∈ attempts, a.success = false → a.timestamp ≤ now - 15 * 60 * 1000) →
      (trackPasswordAttempt attempts now success).2.allowed = true) := by
  constructor
  · intro attempts now success hsort hcount
    have hcount2 : 5 ≤ ((attempts.filter
        (fun a => decide (now - 15 * 60 * 1000 < a.timestamp))).filter
          (fun a => !a.success)).length := hcount
    obtain ⟨x, hxmem⟩ := List.exists_mem_of_length_pos
      (lt_of_lt_of_le (by norm_num) hcount2)
    have hsome : ((attempts.filter
        (fun a => decide (now - 15 * 60 * 1000 < a.timestamp))).find?
          (fun a => !a.success)).isSome := by
      rw [List.find?_isSome]
      exact ⟨x, (List.mem_filter.mp hxmem).1, (List.mem_filter.mp hxmem).2⟩
    obtain ⟨a0, ha0⟩ := Option.isSome_iff_exists.mp hsome
    have ha0mem := List.mem_of_find?_eq_some ha0
    have ha0fail : a0.success = false := by simpa using List.find?_some ha0
    have ha0win : now - 15 * 60 * 1000 < a0.timestamp := by
      have := (List.mem_filter.mp ha0mem).2
      simpa using this
    have ha0att : a0 ∈ attempts := (List.mem_filter.mp ha0mem).1
    have hfindnew : ((attempts.filter
        (fun a => decide (now - 15 * 60 * 1000 < a.timestamp)))
          ++ [(⟨now, success⟩ : AttemptRec)]).find? (fun a => !a.success)
        = some a0 := by
      rw [List.find?_append, ha0]
      rfl
    rw [trackPasswordAttempt_eval]
    simp only []
    rw [if_pos hcount, hfindnew]
    refine ⟨rfl, a0, ha0fail, ha0att, ha0win, ?_, rfl⟩
    intro a ha hafail hawin
    refine find?_failed_min _ (List.Pairwise.filter _ hsort) a0 ha0 a ?_ hafail
    exact List.mem_filter.mpr ⟨ha, by simpa using hawin⟩
  · intro attempts now success hall
    have hzero : failedCountInWindow attempts now = 0 := by
      unfold failedCountInWindow
      rw [List.length_eq_zero]
      rw [List.filter_eq_nil_iff]
      intro a hamem
      have hwin := (List.mem_filter.mp hamem).2
      have hatt := (List.mem_filter.mp hamem).1
      simp only [Bool.not_eq_true']
      by_contra hfa
      have hfa2 : a.success = false := by simpa using hfa
      have := hall a hatt hfa2
      have hwin2 : now - 15 * 60 * 1000 < a.timestamp := by simpa using hwin
      omega
    rw [trackPasswordAttempt_eval]
    simp only []
    rw [if_neg (by omega)]

/-- Witness for claim C3: five concrete failed attempts lock the next call
out; a log whose failures all predate the window allows the call. -/
theorem c3_lockout_witness :
    (trackPasswordAttempt
      [⟨100, false⟩, ⟨101, false⟩, ⟨102, false⟩, ⟨103, false⟩, ⟨104, false⟩]
      1000 false).2.allowed = false ∧
    (trackPasswordAttempt [⟨0, false⟩] 1000000 false).2.allowed = true :=
  ⟨(c3_lockout_after_five_failures.1
      [⟨100, false⟩, ⟨101, false⟩, ⟨102, false⟩, ⟨103, false⟩, ⟨104, false⟩]
      1000 false (by decide) (by decide)).1,
   c3_lockout_after_five_failures.2 [⟨0, false⟩] 1000000 false (by decide)⟩

/-! ## Claim C4: attempts are recorded before the outcome is known -/

/-- Claim C4 fails on the code: `verifyMasterPassword` calls the tracker with
success false before comparing hashes and never corrects the record, so a
successful verification raises the failed count in the window from 0 to 1.
This theorem evaluates the code at the failing input: an empty attempt log and
a candidate that matches the stored verifier. -/
theorem c4_success_counted_as_failure :
    (verifyMasterPassword toyRuntime
      { localStore := []
        sessionStore := [("master_password_hash", sha256Hex toyRuntime "Pw")]
        activeKey := none
        encryptionEnabled := false
        attempts := []
        now := 1000
        rng := fun _ => ([], [])
        rngIdx := 0 }
      "Pw").2 = true ∧
    failedCountInWindow ([] : List AttemptRec) 1000 = 0 ∧
    failedCountInWindow
      (verifyMasterPassword toyRuntime
        { localStore := []
          sessionStore := [("master_password_hash", sha256Hex toyRuntime "Pw")]
          activeKey := none
          encryptionEnabled := false
          attempts := []
          now := 1000
          rng := fun _ => ([], [])
          rngIdx := 0 }
        "Pw").1.attempts 1000 = 1 :=
  ⟨rfl, rfl, rfl⟩

/-! ## Claim C2: setMasterPassword does not migrate plaintext records -/

/-- Claim C2 fails on the code: `setMasterPasswordSecure` installs the derived
key and persists the verifier hash, but never invokes the migration helper, so
a record stored in plaintext before the call still has metadata encrypted
false (and its plaintext value) afterwards; only the plaintext read path keeps
`getItem` returning the original value. This theorem evaluates the code at the
failing input: one plaintext record, then a strong master password is set. -/
theorem c2_no_migration_on_set_master_password :
    ∃ st1, setMasterPasswordSecure toyRuntime
      { localStore :=
          [("host1", .raw "host1-value"),
           ("host1_config",
            .cfg { key := "host1", encrypted := false, version := some "1.1.0" })]
        sessionStore := []
        activeKey := none
        encryptionEnabled := false
        attempts := []
        now := 5
        rng := fun _ => ([], [])
        rngIdx := 0 }
      "Abcdef123!@#" = some st1 ∧
      st1.activeKey = some (deriveKeyFromPassword toyRuntime "Abcdef123!@#") ∧
      alGet st1.sessionStore "master_password_hash"
        = some (sha256Hex toyRuntime "Abcdef123!@#") ∧
      alGet st1.localStore "host1" = some (.raw "host1-value") ∧
      alGet st1.localStore "host1_config"
        = some (.cfg { key := "host1", encrypted := false, version := some "1.1.0" }) ∧
      (getItem toyRuntime st1 "host1").value = some "host1-value" := by
  refine ⟨_, rfl, rfl, ?_, ?_, ?_, ?_⟩ <;> decide

/-! ## Rotation claim groundwork -/

theorem rotationBookkeeping_get_ne (R : Runtime) (st : St R) (kq : String)
    (h : kq ≠ "secure_storage_config") :
    alGet (rotationBookkeeping R st).localStore kq = alGet st.localStore kq := by
  unfold rotationBookkeeping
  split
  · rfl
  · split
    · rfl
    · exact alGet_alSet_ne _ _ _ _ h

/-- Evaluation form of `performKeyRotation` in a state with an active key. -/
theorem performKeyRotation_eq (R : Runtime) (st : St R) (newPassword : String)
    (oldKey : R.Key) (hk : st.activeKey = some oldKey) :
    performKeyRotation R st newPassword =
      ({ rotationBookkeeping R
          (((alKeys st.localStore).filter (fun k => strStartsWith k "secure_")).foldl
            (rotateOne R oldKey (deriveKeyFromPassword R newPassword)) st) with
         activeKey := some (deriveKeyFromPassword R newPassword) }, true) := by
  simp [performKeyRotation, hk]

/-- The concrete envelope of value vv under the key of password Pw1. -/
def envPw1 : EncryptedData :=
  encryptData toyRuntime [(3 : Byte)] [(4 : Byte)] 0 "vv"
    (.key (deriveKeyFromPassword toyRuntime "Pw1"))

/-- A concrete store holding one encrypted record named outside the rotation
filter and one inside it, both with encrypted metadata, with the key of
password Pw1 active. -/
def stRot : St toyRuntime :=
  { localStore :=
      [("hosts", .env envPw1),
       ("hosts_config",
        .cfg { key := "hosts", encrypted := true, version := some "1.1.0" }),
       ("secure_hosts", .env envPw1),
       ("secure_hosts_config",
        .cfg { key := "secure_hosts", encrypted := true, version := some "1.1.0" })]
    sessionStore := []
    activeKey := some (deriveKeyFromPassword toyRuntime "Pw1")
    encryptionEnabled := true
    attempts := []
    now := 7
    rng := fun _ => ([(9 : Byte)], [(8 : Byte)])
    rngIdx := 0 }

/-! ## Claim C7: what rotation actually selects -/

/-- Counterexample to claim C7 as stated: rotation completes with success and
no per-entry failure, yet the record hosts, whose metadata says encrypted,
keeps its stored envelope byte for byte — still decryptable only under the old
key — because the loop selects entries by the secure_ name filter, not by
metadata. -/
theorem c7_counterexample :
    (performKeyRotation toyRuntime stRot "Pw2").2 = true ∧
    alGet stRot.localStore "hosts_config"
      = some (.cfg { key := "hosts", encrypted := true, version := some "1.1.0" }) ∧
    alGet (performKeyRotation toyRuntime stRot "Pw2").1.localStore "hosts"
      = some (.env envPw1) ∧
    decryptData toyRuntime envPw1
      (.key (deriveKeyFromPassword toyRuntime "Pw1")) = some "vv" ∧
    decryptData toyRuntime envPw1
      (.key (deriveKeyFromPassword toyRuntime "Pw2")) = none :=
  ⟨by decide, by decide, by decide, rfl, rfl⟩

/-- Claim C7 amended: given an active old key, rotation succeeds and installs
the key derived from the new password; it re-encrypts exactly the stored
entries whose storage key starts with secure_ and does not contain config —
regardless of their metadata — replacing each decryptable one with an envelope
under the new key holding the same value; every other entry, including
encrypted records with other names, keeps its stored value (bookkeeping
aside). -/
theorem c7_rotation_by_name_not_metadata (R : Runtime) (st : St R)
    (newPassword : String) (oldKey : R.Key)
    (hnd : (alKeys st.localStore).Nodup)
    (hk : st.activeKey = some oldKey) :
    (performKeyRotation R st newPassword).2 = true ∧
    (performKeyRotation R st newPassword).1.activeKey
      = some (deriveKeyFromPassword R newPassword) ∧
    (∀ kq sv, alGet st.localStore kq = some sv →
      ¬(strStartsWith kq "secure_" = true ∧ strContains kq "config" = false) →
      kq ≠ "secure_storage_config" →
      alGet (performKeyRotation R st newPassword).1.localStore kq = some sv) ∧
    (∀ kq env v, alGet st.localStore kq = some (.env env) →
      strStartsWith kq "secure_" = true →
      strContains kq "config" = false →
      decryptData R env (.key oldKey) = some v →
      ∃ e2, alGet (performKeyRotation R st newPassword).1.localStore kq
          = some (.env e2) ∧
        decryptData R e2 (.key (deriveKeyFromPassword R newPassword)) = some v) := by
  rw [performKeyRotation_eq R st newPassword oldKey hk]
  refine ⟨rfl, rfl, ?_, ?_⟩
  · intro kq sv hget hnot hnbk
    have hall : ∀ kk ∈ (alKeys st.localStore).filter (fun k => strStartsWith k "secure_"),
        kk ≠ kq ∨ strContains kk "config" = true := by
      intro kk hkk
      by_cases heq : kk = kq
      · subst heq
        right
        have hstart : strStartsWith kk "secure_" = true := (List.mem_filter.mp hkk).2
        by_cases hc : strContains kk "config" = true
        · exact hc
        · exact absurd ⟨hstart, by simpa using hc⟩ hnot
      · exact Or.inl heq
    show alGet (rotationBookkeeping R _).localStore kq = some sv
    rw [rotationBookkeeping_get_ne R _ kq hnbk,
      foldl_rotateOne_frame R oldKey (deriveKeyFromPassword R newPassword) _ kq st hall]
    exact hget
  · intro kq env v hget hstart hncfg hdec
    have hkeys : kq ∈ (alKeys st.localStore).filter (fun k => strStartsWith k "secure_") :=
      List.mem_filter.mpr ⟨alGet_mem_keys hget, hstart⟩
    have hndf : ((alKeys st.localStore).filter
        (fun k => strStartsWith k "secure_")).Nodup := List.Nodup.filter _ hnd
    obtain ⟨e2, he2, hdec2⟩ := foldl_rotateOne_effect R oldKey
      (deriveKeyFromPassword R newPassword) _ st kq env v hndf hkeys hncfg hget hdec
    refine ⟨e2, ?_, hdec2⟩
    show alGet (rotationBookkeeping R _).localStore kq = some (.env e2)
    rw [rotationBookkeeping_get_ne R _ kq (ne_bookkeeping_of_not_config hncfg)]
    exact he2

/-- Witness for the amended claim C7: in the concrete rotation state, the
record named hosts is left unchanged while secure_hosts is re-encrypted under
the new key. -/
theorem c7_rotation_witness :
    alGet (performKeyRotation toyRuntime stRot "Pw2").1.localStore "hosts"
      = some (.env envPw1) ∧
    ∃ e2, alGet (performKeyRotation toyRuntime stRot "Pw2").1.localStore "secure_hosts"
        = some (.env e2) ∧
      decryptData toyRuntime e2
        (.key (deriveKeyFromPassword toyRuntime "Pw2")) = some "vv" := by
  have h := c7_rotation_by_name_not_metadata toyRuntime stRot "Pw2"
    (deriveKeyFromPassword toyRuntime "Pw1") (by decide) rfl
  exact ⟨h.2.2.1 "hosts" (.env envPw1) (by decide) (by decide) (by decide),
    h.2.2.2 "secure_hosts" envPw1 "vv" (by decide) (by decide) (by decide) rfl⟩

/-! ## Claim C8: what rotation preserves -/

/-- Counterexample to claim C8 as stated: the encrypted record hosts reads
back its value before rotation, rotation completes with success, and the read
afterwards returns null — the entry was never re-encrypted (its name lacks the
secure_ marker) while the active key moved to the one of the new password. -/
theorem c8_counterexample :
    (getItem toyRuntime stRot "hosts").value = some "vv" ∧
    (performKeyRotation toyRuntime stRot "Pw2").2 = true ∧
    (getItem toyRuntime (performKeyRotation toyRuntime stRot "Pw2").1 "hosts").value
      = none := by
  refine ⟨?_, ?_, ?_⟩ <;> decide

/-- Claim C8 amended: rotation preserves data for the records it actually
selects: for an encrypted record whose storage key starts with secure_, does
not contain config, is not the bookkeeping stem secure_storage, and whose
envelope decrypts under the active old key, `getItem` returns the same logical
value before and after `performKeyRotation`, transparently under the newly
installed key. -/
theorem c8_rotation_preserves_secure_entries (R : Runtime) (st : St R)
    (newPassword : String) (oldKey : R.Key) (kq : String)
    (env : EncryptedData) (cfg : StorageCfg) (v : R.Val)
    (hnd : (alKeys st.localStore).Nodup)
    (hk : st.activeKey = some oldKey)
    (hstart : strStartsWith kq "secure_" = true)
    (hncfg : strContains kq "config" = false)
    (hnbk : kq ≠ "secure_storage")
    (hval : alGet st.localStore kq = some (.env env))
    (hcfgv : alGet st.localStore (kq ++ "_config") = some (.cfg cfg))
    (henc : cfg.encrypted = true)
    (hdec : decryptData R env (.key oldKey) = some v) :
    getItem R st kq = ⟨some (R.stringify v), none⟩ ∧
    getItem R (performKeyRotation R st newPassword).1 kq
      = ⟨some (R.stringify v), none⟩ := by
  constructor
  · simp [getItem, getItemE, hval, hcfgv, henc, hk, hdec, svalAsCfg, svalAsEnv]
  · rw [performKeyRotation_eq R st newPassword oldKey hk]
    have hkeys : kq ∈ (alKeys st.localStore).filter (fun k => strStartsWith k "secure_") :=
      List.mem_filter.mpr ⟨alGet_mem_keys hval, hstart⟩
    have hndf : ((alKeys st.localStore).filter
        (fun k => strStartsWith k "secure_")).Nodup := List.Nodup.filter _ hnd
    obtain ⟨e2, he2, hdec2⟩ := foldl_rotateOne_effect R oldKey
      (deriveKeyFromPassword R newPassword) _ st kq env v hndf hkeys hncfg hval hdec
    have hv2 : alGet (rotationBookkeeping R
        (((alKeys st.localStore).filter (fun k => strStartsWith k "secure_")).foldl
          (rotateOne R oldKey (deriveKeyFromPassword R newPassword)) st)).localStore kq
        = some (.env e2) := by
      rw [rotationBookkeeping_get_ne R _ kq (ne_bookkeeping_of_not_config hncfg)]
      exact he2
    have hallm : ∀ kk ∈ (alKeys st.localStore).filter (fun k => strStartsWith k "secure_"),
        kk ≠ kq ++ "_config" ∨ strContains kk "config" = true := by
      intro kk hkk
      by_cases heq : kk = kq ++ "_config"
      · right
        rw [heq]
        exact strContains_append_config kq
      · exact Or.inl heq
    have hm2 : alGet (rotationBookkeeping R
        (((alKeys st.localStore).filter (fun k => strStartsWith k "secure_")).foldl
          (rotateOne R oldKey (deriveKeyFromPassword R newPassword)) st)).localStore
        (kq ++ "_config") = some (.cfg cfg) := by
      rw [rotationBookkeeping_get_ne R _ _ (append_config_ne_bookkeeping hnbk),
        foldl_rotateOne_frame R oldKey (deriveKeyFromPassword R newPassword) _
          (kq ++ "_config") st hallm]
      exact hcfgv
    simp [getItem, getItemE, hv2, hm2, henc, hdec2, svalAsCfg, svalAsEnv]

/-- Witness for the amended claim C8: the secure_hosts record reads back vv
both before and after a concrete rotation to the key of password Pw2. -/
theorem c8_rotation_witness :
    getItem toyRuntime stRot "secure_hosts" = ⟨some "vv", none⟩ ∧
    getItem toyRuntime (performKeyRotation toyRuntime stRot "Pw2").1 "secure_hosts"
      = ⟨some "vv", none⟩ :=
  c8_rotation_preserves_secure_entries toyRuntime stRot "Pw2"
    (deriveKeyFromPassword toyRuntime "Pw1") "secure_hosts" envPw1
    { key := "secure_hosts", encrypted := true, version := some "1.1.0" } "vv"
    (by decide) rfl (by decide) (by decide) (by decide) (by decide) (by decide)
    rfl rfl

/-! ## Claim C10: the fixed salt makes rotation with the same password an
identity on the effective key -/

/-- Claim C10: `deriveKeyFromPassword` feeds PBKDF2 the hard-coded constant
salt, making the derived key a function of the password alone; hence when the
active key was derived from password p, `performKeyRotation` with the same p
succeeds and installs a key identical to the one already active. -/
theorem c10_rotation_same_password_identity (R : Runtime) (st : St R)
    (p : String) (hk : st.activeKey = some (deriveKeyFromPassword R p)) :
    deriveKeyFromPassword R p
      = R.pbkdf2 p (R.textEncode "quantum-ssh-manager-salt-2025") 100000 ∧
    (performKeyRotation R st p).2 = true ∧
    (performKeyRotation R st p).1.activeKey = st.activeKey := by
  refine ⟨rfl, ?_, ?_⟩
  · rw [performKeyRotation_eq R st p _ hk]
  · rw [performKeyRotation_eq R st p _ hk, hk]

/-- Witness for claim C10: rotating the concrete state with its own password
leaves the active key unchanged. -/
theorem c10_rotation_witness :
    (performKeyRotation toyRuntime stRot "Pw1").1.activeKey = stRot.activeKey :=
  (c10_rotation_same_password_identity toyRuntime stRot "Pw1" rfl).2.2
